import Mathlib

/-!
# WasatchVCPP::Proxy — device registry and session lifecycle

A shallow embedding of `WasatchVCPPProxy.cpp` (classes `WasatchVCPP::Proxy::Driver`
and `WasatchVCPP::Proxy::Spectrometer`) and theorems about it.

Modelling conventions

* C++ `int` values are `Int`; the `int → size_t` conversion of `getSpectrometer`
  is written out as `% 2 ^ w`.
* The flat `wp_*` driver functions are external.  Every call is appended to a
  log (`List Call`) and its answer is an arbitrary function of the log so far,
  so a theorem quantified over `Extern` holds for every behaviour of the driver.
* The `double*` buffer of a session is `Option (List (Option Double))`: `none`
  is `nullptr`, `some cells` is an allocated block of `cells.length` cells.  A
  cell is `none` while it is indeterminate (`malloc` does not initialise the
  block) and `some x` once a value has been written to it.  `malloc` of that
  block may return `NULL`; whether it does is an external input.  The two
  temporary arrays of `readEEPROMFields` and the storage of the vectors, whose
  null state the class never observes, are taken to be allocated.
* `std::map<string,string>` is a partial function `String → Option String`.
* Undefined behaviour (an out-of-bounds `operator[]`, the read of an
  indeterminate cell) is the result `none` of an `Option`-valued operation.
-/

namespace WasatchVCPP.Proxy

/-- Carrier of `double` and `float` values.  The code only moves such values
around; the single arithmetic observation is the test `excitationNM > 0`. -/
abbrev Double := ℚ

/-- One call made to the flat driver API of `WasatchVCPPWrapper.h`, with the
scalar arguments that were passed. -/
inductive Call where
  | wp_open_all_spectrometers
  | wp_set_logfile_path (pathname : String)
  | wp_get_pixels (specIndex : Int)
  | wp_get_wavelengths (specIndex : Int) (len : Int)
  | wp_get_wavenumbers (specIndex : Int) (len : Int)
  | wp_get_eeprom_field_count (specIndex : Int)
  | wp_get_eeprom (specIndex : Int) (len : Int)
  | wp_close_spectrometer (specIndex : Int)
  | wp_get_spectrum (specIndex : Int) (len : Int)
  | wp_set_integration_time_ms (specIndex : Int) (ms : Nat)
  | wp_set_laser_enable (specIndex : Int) (flag : Bool)
  deriving DecidableEq, Repr

/-- White space of the C locale, the characters `isspace` accepts. -/
def isSpaceC (c : Char) : Bool := c.toNat = 32 || (9 ≤ c.toNat && c.toNat ≤ 13)

/-- The characters of a text after the leading white space and the optional
sign that `strtod` skips. -/
def afterSign (t : String) : List Char :=
  match t.toList.dropWhile isSpaceC with
  | '+' :: cs => cs
  | '-' :: cs => cs
  | cs => cs

/-- Unparseable text, in the C locale (the program never calls `setlocale`):
after the white space and the sign the text ends, or goes on with a character
that starts neither a decimal or hexadecimal number nor an infinity or a NaN.
The empty text is unparseable. -/
def noConversion (t : String) : Bool :=
  match afterSign t with
  | [] => true
  | c :: _ => !(c.isDigit || c = '.' || c = 'i' || c = 'I' || c = 'n' || c = 'N')

/-- A text that holds zero: after the white space and the sign it consists of
zero digits with at most one decimal point, and has at least one digit. -/
def zeroText (t : String) : Bool :=
  (afterSign t).all (fun c => c = '0' || c = '.') && (afterSign t).contains '0' &&
    decide ((afterSign t).count '.' ≤ 1)

/-- Everything the translation unit uses but does not define: the constant
`WP_SUCCESS` and the `wp_*` functions of `WasatchVCPPWrapper.h`, and `atof`
and `malloc` of the C library.  Each function field receives the log of the
driver calls made before it and the scalar arguments.  A function that fills a
caller-supplied array returns, next to its `int` code, the cells it wrote. -/
structure Extern where
  WP_SUCCESS : Int
  /-- The value of `(float)atof(s.c_str())`; a NaN is any non-positive value. -/
  atof : String → Double
  /-- The C standard: `atof` returns zero when no conversion can be performed. -/
  atof_noConversion : ∀ t, noConversion t = true → atof t = 0
  /-- The C standard: a zero literal converts to zero. -/
  atof_zeroText : ∀ t, zeroText t = true → atof t = 0
  /-- Whether `malloc(n * sizeof(double))` returns a block (`true`) or `NULL`. -/
  malloc : List Call → Int → Bool
  wp_open_all_spectrometers : List Call → Int
  wp_set_logfile_path : List Call → String → Int
  wp_get_pixels : List Call → Int → Int
  wp_get_wavelengths : List Call → Int → Int → Int × List Double
  wp_get_wavenumbers : List Call → Int → Int → Int × List Double
  wp_get_eeprom_field_count : List Call → Int → Int
  /-- Returns the code and the two parallel arrays `names[i]`, `values[i]`. -/
  wp_get_eeprom : List Call → Int → Int → Int × (Nat → String) × (Nat → String)
  wp_close_spectrometer : List Call → Int → Int
  wp_get_spectrum : List Call → Int → Int → Int × List Double
  wp_set_integration_time_ms : List Call → Int → Nat → Int
  wp_set_laser_enable : List Call → Int → Bool → Int

/-! ## `std::map<std::string, std::string>` -/

/-- A `std::map<std::string, std::string>` as a partial function. -/
abbrev StrMap := String → Option String

/-- The empty map. -/
def StrMap.empty : StrMap := fun _ => none

/-- `std::map::insert(make_pair(k, v))`: adds the pair when the key is absent
and leaves the map alone when the key is already present. -/
def StrMap.insert (m : StrMap) (k v : String) : StrMap :=
  fun x => if x = k then (match m k with | some old => some old | none => some v) else m x

/-- `std::map::operator[](k)`: the mapped value, after inserting a
value-initialised (empty) string when the key is absent.  Returns the value
and the map after the call. -/
def StrMap.index (m : StrMap) (k : String) : String × StrMap :=
  match m k with
  | some v => (v, m)
  | none => ("", fun x => if x = k then some "" else m x)

/-! ## Arrays -/

/-- `std::vector<double>::resize(n)`: truncate, or pad with `0.0`. -/
def resize (v : List Double) (n : Nat) : List Double :=
  (v ++ List.replicate (n - v.length) 0).take n

/-- The contents of a block of memory after an external function wrote the
cells `written` from its start: the block keeps its size, cells that were not
written keep their contents, and writes past the end of the block are outside
the model. -/
def overlay (old written : List Double) : List Double :=
  (written ++ old.drop written.length).take old.length

/-- The cells of a `malloc` block after an external function wrote the values
`written` from its start: the block keeps its size, a cell that was not
written keeps its state, and writes past the end of the block are outside the
model. -/
def overlayCells (old : List (Option Double)) (written : List Double) : List (Option Double) :=
  (written.map some ++ old.drop written.length).take old.length

/-- The values of a run of cells; undefined when a cell is indeterminate. -/
def readCells : List (Option Double) → Option (List Double)
  | [] => some []
  | none :: _ => none
  | some x :: cs => (readCells cs).map (fun xs => x :: xs)

/-! ## Proxy Spectrometer -/

/-- Session object `WasatchVCPP::Proxy::Spectrometer`. -/
structure Spectrometer where
  specIndex : Int
  pixels : Int
  model : String
  serialNumber : String
  wavelengths : List Double
  wavenumbers : List Double
  excitationNM : Double
  eepromFields : StrMap
  spectrumBuf : Option (List (Option Double))

/-- Modelled from the spec: the member declarations of `WasatchVCPPProxy.h` are
not among the sources.  Strings, vectors and the map are default-constructed
(empty); `spectrumBuf` starts as `nullptr` ("no buffer" for a session whose
pixel-count probe fails); `pixels` and `excitationNM` start at `0`. -/
def Spectrometer.fresh (specIndex : Int) : Spectrometer :=
  { specIndex := specIndex, pixels := 0, model := "", serialNumber := "",
    wavelengths := [], wavenumbers := [], excitationNM := 0,
    eepromFields := StrMap.empty, spectrumBuf := none }

/-- The loop `for (int i = 0; i < count; i++) eepromFields.insert(...)`. -/
def insertLoop (names values : Nat → String) (count : Nat) (m : StrMap) : StrMap :=
  (List.range count).foldl (fun acc i => acc.insert (names i) (values i)) m

/-- Method `Spectrometer::readEEPROMFields`. -/
def Spectrometer.readEEPROMFields (E : Extern) (log : List Call) (self : Spectrometer) :
    Bool × Spectrometer × List Call :=
  let count := E.wp_get_eeprom_field_count log self.specIndex
  let log1 := log ++ [Call.wp_get_eeprom_field_count self.specIndex]
  if count ≤ 0 then (false, self, log1)
  else
    let r := E.wp_get_eeprom log1 self.specIndex count
    let log2 := log1 ++ [Call.wp_get_eeprom self.specIndex count]
    if E.WP_SUCCESS ≠ r.1 then (false, self, log2)
    else
      (true,
       { self with eepromFields := insertLoop r.2.1 r.2.2 count.toNat self.eepromFields },
       log2)

/-- Constructor `Spectrometer::Spectrometer(int specIndex)`.  The result of
`malloc` is stored unchecked: a block of `pixels` indeterminate cells, or
`nullptr`. -/
def Spectrometer.ctor (E : Extern) (log : List Call) (specIndex : Int) :
    Spectrometer × List Call :=
  let self0 := Spectrometer.fresh specIndex
  let r1 := self0.readEEPROMFields E log
  let self1 := r1.2.1
  let log1 := r1.2.2
  let pixels := E.wp_get_pixels log1 specIndex
  let log2 := log1 ++ [Call.wp_get_pixels specIndex]
  let self2 := { self1 with pixels := pixels }
  if pixels ≤ 0 then (self2, log2)
  else
    let buf : Option (List (Option Double)) :=
      if E.malloc log2 pixels then some (List.replicate pixels.toNat none) else none
    let m1 := self2.eepromFields.index "model"
    let m2 := m1.2.index "serialNumber"
    let wl0 := resize self2.wavelengths pixels.toNat
    let rwl := E.wp_get_wavelengths log2 specIndex pixels
    let log3 := log2 ++ [Call.wp_get_wavelengths specIndex pixels]
    let m3 := m2.2.index "excitationNM"
    let ex := E.atof m3.1
    let self3 : Spectrometer :=
      { self2 with
        spectrumBuf := buf, model := m1.1, serialNumber := m2.1,
        wavelengths := overlay wl0 rwl.2, excitationNM := ex, eepromFields := m3.2 }
    if ex > 0 then
      let wn0 := resize self3.wavenumbers pixels.toNat
      let rwn := E.wp_get_wavenumbers log3 specIndex pixels
      let log4 := log3 ++ [Call.wp_get_wavenumbers specIndex pixels]
      ({ self3 with wavenumbers := overlay wn0 rwn.2 }, log4)
    else (self3, log3)

/-- Method `Spectrometer::close`.  The code returned by
`wp_close_spectrometer` is discarded, so only the call is recorded. -/
def Spectrometer.close (log : List Call) (self : Spectrometer) :
    Bool × Spectrometer × List Call :=
  let r1 : Spectrometer × List Call :=
    if self.specIndex ≥ 0 then
      ({ self with specIndex := -1 }, log ++ [Call.wp_close_spectrometer self.specIndex])
    else (self, log)
  let self2 : Spectrometer :=
    match r1.1.spectrumBuf with
    | some _ => { r1.1 with spectrumBuf := none }
    | none => r1.1
  (true, self2, r1.2)

/-- The loop `for (int i = 0; i < pixels; i++) result.push_back(spectrumBuf[i])`
with `n` iterations left; reading past the block or reading an indeterminate
cell is undefined (`none`). -/
def copyLoop (buf : List (Option Double)) : Nat → Nat → List Double → Option (List Double)
  | 0, _, result => some result
  | n + 1, i, result =>
    match buf[i]? with
    | none => none
    | some none => none
    | some (some x) => copyLoop buf n (i + 1) (result ++ [x])

/-- Method `Spectrometer::getSpectrum`. -/
def Spectrometer.getSpectrum (E : Extern) (log : List Call) (self : Spectrometer) :
    Option (List Double × Spectrometer × List Call) :=
  match self.spectrumBuf with
  | none => some ([], self, log)
  | some buf =>
    let r := E.wp_get_spectrum log self.specIndex self.pixels
    let log1 := log ++ [Call.wp_get_spectrum self.specIndex self.pixels]
    let self1 := { self with spectrumBuf := some (overlayCells buf r.2) }
    if E.WP_SUCCESS = r.1 then
      match copyLoop (overlayCells buf r.2) self.pixels.toNat 0 [] with
      | none => none
      | some result => some (result, self1, log1)
    else some ([], self1, log1)

/-- Method `Spectrometer::setIntegrationTimeMS`: the `int` code of the driver
is returned through the `bool` return type, that is, as `code != 0`. -/
def Spectrometer.setIntegrationTimeMS (E : Extern) (log : List Call) (self : Spectrometer)
    (ms : Nat) : Bool × List Call :=
  (decide (E.wp_set_integration_time_ms log self.specIndex ms ≠ 0),
   log ++ [Call.wp_set_integration_time_ms self.specIndex ms])

/-- Method `Spectrometer::setLaserEnable`, same conversion. -/
def Spectrometer.setLaserEnable (E : Extern) (log : List Call) (self : Spectrometer)
    (flag : Bool) : Bool × List Call :=
  (decide (E.wp_set_laser_enable log self.specIndex flag ≠ 0),
   log ++ [Call.wp_set_laser_enable self.specIndex flag])

/-! ## Proxy Driver -/

/-- The static members of `WasatchVCPP::Proxy::Driver`. -/
structure Driver where
  numberOfSpectrometers : Int
  spectrometers : List Spectrometer

/-- The static initialisers: `numberOfSpectrometers = 0` and an empty vector. -/
def Driver.init : Driver := { numberOfSpectrometers := 0, spectrometers := [] }

/-- The loop `for (int i = 0; i < n; i++) spectrometers.push_back(Spectrometer(i))`
with `n` iterations left and loop variable `i`. -/
def openLoop (E : Extern) : Nat → Int → List Spectrometer → List Call →
    List Spectrometer × List Call
  | 0, _, ss, log => (ss, log)
  | n + 1, i, ss, log =>
    let r := Spectrometer.ctor E log i
    openLoop E n (i + 1) (ss ++ [r.1]) r.2

/-- Method `Driver::openAllSpectrometers`. -/
def Driver.openAllSpectrometers (E : Extern) (log : List Call) (d : Driver) :
    Int × Driver × List Call :=
  let d1 := { d with spectrometers := [] }
  let n := E.wp_open_all_spectrometers log
  let log1 := log ++ [Call.wp_open_all_spectrometers]
  let d2 := { d1 with numberOfSpectrometers := n }
  if n ≤ 0 then (0, d2, log1)
  else
    let r := openLoop E n.toNat 0 d2.spectrometers log1
    (n, { d2 with spectrometers := r.1 }, r.2)

/-- Method `Driver::getSpectrometer`, for a `size_t` of `w` bits: `index` is
converted to `size_t` for the comparison and for the subscript.  `none` is
`nullptr`; otherwise the element the returned pointer designates. -/
def Driver.getSpectrometer (w : Nat) (d : Driver) (index : Int) : Option Spectrometer :=
  let idx := (index % 2 ^ w).toNat
  if h : idx < d.spectrometers.length then some (d.spectrometers.get ⟨idx, h⟩) else none

/-- The loop `for (int i = 0; i < n; i++) spectrometers[i].close()` with `n`
iterations left; a subscript outside the vector is undefined (`none`). -/
def closeLoop : Nat → Nat → List Spectrometer → List Call →
    Option (List Spectrometer × List Call)
  | 0, _, ss, log => some (ss, log)
  | n + 1, i, ss, log =>
    match ss[i]? with
    | none => none
    | some s =>
      let r := s.close log
      closeLoop n (i + 1) (ss.set i r.2.1) r.2.2

/-- Method `Driver::closeAllSpectrometers`; `none` is undefined behaviour. -/
def Driver.closeAllSpectrometers (log : List Call) (d : Driver) :
    Option (Bool × Driver × List Call) :=
  match closeLoop d.numberOfSpectrometers.toNat 0 d.spectrometers log with
  | none => none
  | some r => some (true, { d with spectrometers := [] }, r.2)

/-- Method `Driver::setLogfile`. -/
def Driver.setLogfile (E : Extern) (log : List Call) (pathname : String) : Bool × List Call :=
  (decide (E.WP_SUCCESS = E.wp_set_logfile_path log pathname),
   log ++ [Call.wp_set_logfile_path pathname])

/-- The answer of the pixel-count probe made by the constructor. -/
def ctorPixels (E : Extern) (log : List Call) (specIndex : Int) : Int :=
  E.wp_get_pixels ((Spectrometer.fresh specIndex).readEEPROMFields E log).2.2 specIndex

/-- Whether the `malloc` call made by the constructor returns a block. -/
def ctorAlloc (E : Extern) (log : List Call) (specIndex : Int) : Bool :=
  E.malloc (((Spectrometer.fresh specIndex).readEEPROMFields E log).2.2 ++
    [Call.wp_get_pixels specIndex]) (ctorPixels E log specIndex)

/-- The mapping built by `readEEPROMFields` inside the constructor, before any
other statement of the constructor runs. -/
def ctorFields (E : Extern) (log : List Call) (specIndex : Int) : StrMap :=
  ((Spectrometer.fresh specIndex).readEEPROMFields E log).2.1.eepromFields

/-! ## Sequences of calls on one session -/

/-- The public operations a caller can apply to a session. -/
inductive Op where
  | close
  | getSpectrum
  | setIntegrationTimeMS (ms : Nat)
  | setLaserEnable (flag : Bool)
  deriving DecidableEq, Repr

/-- One operation applied to a session and the call log; return values are
dropped.  `none` is undefined behaviour. -/
def step (E : Extern) (op : Op) (st : Spectrometer × List Call) :
    Option (Spectrometer × List Call) :=
  match op with
  | Op.close => some (st.1.close st.2).2
  | Op.getSpectrum => (st.1.getSpectrum E st.2).map (fun r => r.2)
  | Op.setIntegrationTimeMS ms => some (st.1, (st.1.setIntegrationTimeMS E st.2 ms).2)
  | Op.setLaserEnable flag => some (st.1, (st.1.setLaserEnable E st.2 flag).2)

/-- A sequence of operations applied from left to right. -/
def run (E : Extern) : List Op → Spectrometer × List Call → Option (Spectrometer × List Call)
  | [], st => some st
  | op :: ops, st => (step E op st).bind (run E ops)

/-- A session state the code can produce: the constructor, called with any
`int`, followed by any sequence of operations none of which is undefined. -/
def Reachable (E : Extern) (s : Spectrometer) : Prop :=
  ∃ (log0 : List Call) (specIndex : Int) (ops : List Op) (log : List Call),
    run E ops (Spectrometer.ctor E log0 specIndex) = some (s, log)

/-- Consistency of the buffer with the pixel count: an allocated buffer has
exactly `pixels` cells and `pixels` is positive. -/
def BufferSized (s : Spectrometer) : Prop :=
  ∀ buf, s.spectrumBuf = some buf → 0 < s.pixels ∧ buf.length = s.pixels.toNat

/-! ## Concrete drivers -/

/-- A driver with two devices, after the scenario of the specification with
shorter arrays: device 0 has 4 pixels and excitation `785.0`, device 1 has
2 pixels and excitation `0`; any other handle is refused.  Every call
succeeds with `WP_SUCCESS = 0`, a read fills the whole buffer, and `malloc`
returns a block. -/
def twoDevices : Extern where
  WP_SUCCESS := 0
  atof := fun s => if s = "785.0" then 785 else 0
  atof_noConversion := fun t h => by
    by_cases ht : t = "785.0"
    · subst ht
      exact absurd h (by decide)
    · simp only [ht, if_false]
  atof_zeroText := fun t h => by
    by_cases ht : t = "785.0"
    · subst ht
      exact absurd h (by decide)
    · simp only [ht, if_false]
  malloc := fun _ _ => true
  wp_open_all_spectrometers := fun _ => 2
  wp_set_logfile_path := fun _ _ => 0
  wp_get_pixels := fun _ h => if h = 0 then 4 else if h = 1 then 2 else -1
  wp_get_wavelengths := fun _ _ n => (0, List.replicate n.toNat 800)
  wp_get_wavenumbers := fun _ _ n => (0, List.replicate n.toNat 200)
  wp_get_eeprom_field_count := fun _ _ => 3
  wp_get_eeprom := fun _ h _ =>
    (0, fun j => ["model", "serialNumber", "excitationNM"].getD j "",
     fun j => (if h = 0 then ["WP-785", "S-0001", "785.0"] else ["WP-532", "S-0002", "0"]).getD j "")
  wp_close_spectrometer := fun _ _ => 0
  wp_get_spectrum := fun _ _ n => (0, List.replicate n.toNat 7)
  wp_set_integration_time_ms := fun _ _ _ => 0
  wp_set_laser_enable := fun _ _ _ => 0

/-- The driver `twoDevices`, except that the pixel-count probe answers `3` for
every handle. -/
def threePixels : Extern := { twoDevices with wp_get_pixels := fun _ _ => 3 }

/-- The driver `twoDevices`, except that the pixel-count probe fails with `-1`
for every handle. -/
def negativePixels : Extern := { twoDevices with wp_get_pixels := fun _ _ => -1 }

/-- The driver `threePixels`, except that the calibration record has two
fields, both named `gain`, with values `1.0` and `2.0` in that order. -/
def duplicateNames : Extern :=
  { threePixels with
    wp_get_eeprom_field_count := fun _ _ => 2
    wp_get_eeprom := fun _ _ _ => (0, fun _ => "gain", fun j => ["1.0", "2.0"].getD j "") }

/-- The driver `threePixels`, except that it reports no calibration field. -/
def noFields : Extern := { threePixels with wp_get_eeprom_field_count := fun _ _ => 0 }

/-- The driver `threePixels`, except that a read writes one cell only and
reports success. -/
def shortRead : Extern := { threePixels with wp_get_spectrum := fun _ _ _ => (0, [7]) }

/-- The driver `twoDevices`, except that the enumeration fails with `-1`. -/
def enumerationError : Extern := { twoDevices with wp_open_all_spectrometers := fun _ => -1 }

/-- The driver `E`, except that `wp_set_integration_time_ms` and
`wp_set_laser_enable` always return the code `r`. -/
def withControlCode (E : Extern) (r : Int) : Extern :=
  { E with
    wp_set_integration_time_ms := fun _ _ _ => r
    wp_set_laser_enable := fun _ _ _ => r }

/-! ## Basic facts about the embedding -/

theorem overlay_length (old written : List Double) :
    (overlay old written).length = old.length := by
  unfold overlay
  simp only [List.length_take, List.length_append, List.length_drop]
  omega

theorem resize_length (v : List Double) (n : Nat) : (resize v n).length = n := by
  unfold resize
  simp only [List.length_take, List.length_append, List.length_replicate]
  omega

/-- Reading the calibration fields changes no member but the mapping. -/
theorem readEEPROMFields_frame (E : Extern) (log : List Call) (self : Spectrometer) :
    (self.readEEPROMFields E log).2.1 =
      { self with eepromFields := (self.readEEPROMFields E log).2.1.eepromFields } := by
  unfold Spectrometer.readEEPROMFields
  simp only []
  split_ifs <;> rfl

theorem ctor_specIndex (E : Extern) (log : List Call) (specIndex : Int) :
    (Spectrometer.ctor E log specIndex).1.specIndex = specIndex := by
  have h := readEEPROMFields_frame E log (Spectrometer.fresh specIndex)
  have h1 : ((Spectrometer.fresh specIndex).readEEPROMFields E log).2.1.specIndex = specIndex := by
    rw [h]; rfl
  unfold Spectrometer.ctor
  simp only []
  split_ifs <;> simp [h1]

/-- The sessions pushed by the enumeration loop, in order. -/
theorem openLoop_spec (E : Extern) (n : Nat) (i : Int) (ss : List Spectrometer)
    (log : List Call) :
    (openLoop E n i ss log).1.map (fun s => s.specIndex) =
      ss.map (fun s => s.specIndex) ++ (List.range n).map (fun (k : Nat) => i + (k : Int)) := by
  induction n generalizing i ss log with
  | zero => simp [openLoop]
  | succ n ih =>
    simp only [openLoop]
    rw [ih, List.range_succ_eq_map]
    simp only [List.map_append, List.map_cons, List.map_nil, List.map_map, ctor_specIndex,
      List.append_assoc, List.singleton_append, Nat.cast_zero, add_zero]
    congr 2
    apply List.map_congr_left
    intro a _
    simp only [Function.comp_apply, Nat.succ_eq_add_one, Nat.cast_add, Nat.cast_one]
    omega

/-- The registry after an enumeration that reports a positive count. -/
theorem openAllSpectrometers_pos (E : Extern) (log : List Call) (d : Driver)
    (hN : 0 < E.wp_open_all_spectrometers log) :
    d.openAllSpectrometers E log =
      (E.wp_open_all_spectrometers log,
       { numberOfSpectrometers := E.wp_open_all_spectrometers log,
         spectrometers := (openLoop E (E.wp_open_all_spectrometers log).toNat 0 []
            (log ++ [Call.wp_open_all_spectrometers])).1 },
       (openLoop E (E.wp_open_all_spectrometers log).toNat 0 []
            (log ++ [Call.wp_open_all_spectrometers])).2) := by
  unfold Driver.openAllSpectrometers
  simp only [not_le.mpr hN, if_false]

/-- The conversion of a non-negative `int` to a `size_t` of at least 32 bits
keeps the value. -/
theorem toSizeT_nonneg (w : Nat) (hw : 32 ≤ w) (i : Int) (h0 : 0 ≤ i) (h1 : i < 2 ^ 31) :
    (i % 2 ^ w).toNat = i.toNat := by
  have hp : (2 : Int) ^ 32 ≤ 2 ^ w := pow_le_pow_right₀ (by norm_num) hw
  rw [Int.emod_eq_of_lt h0 (by omega)]

/-- The conversion of a negative `int` to a `size_t` of at least 32 bits gives
a value of at least `2 ^ 31`. -/
theorem toSizeT_neg (w : Nat) (hw : 32 ≤ w) (i : Int) (h0 : -2 ^ 31 ≤ i) (h1 : i < 0) :
    2 ^ 31 ≤ (i % 2 ^ w).toNat := by
  have hp : (2 : Int) ^ 32 ≤ 2 ^ w := pow_le_pow_right₀ (by norm_num) hw
  have h2 : i % 2 ^ w = i + 2 ^ w := by
    rw [← Int.add_mul_emod_self_left i (2 ^ w) 1, mul_one]
    exact Int.emod_eq_of_lt (by omega) (by omega)
  rw [h2]
  omega

/-! ## Facts about one session -/

theorem overlayCells_length (old : List (Option Double)) (written : List Double) :
    (overlayCells old written).length = old.length := by
  unfold overlayCells
  simp only [List.length_take, List.length_append, List.length_drop, List.length_map]
  omega

/-- A read that writes at least as many values as the block has cells leaves
the first values in the cells. -/
theorem overlayCells_full (old : List (Option Double)) (written : List Double)
    (h : old.length ≤ written.length) :
    overlayCells old written = (written.take old.length).map some := by
  unfold overlayCells
  rw [List.take_append_of_le_length (by rw [List.length_map]; exact h), List.map_take]

theorem readCells_map_some (out : List Double) : readCells (out.map some) = some out := by
  induction out with
  | nil => rfl
  | cons x xs ih => simp [readCells, ih]

theorem readCells_eq_some (cs : List (Option Double)) (out : List Double) :
    readCells cs = some out ↔ cs = out.map some := by
  constructor
  · intro h
    induction cs generalizing out with
    | nil =>
      simp only [readCells, Option.some.injEq] at h
      subst h
      rfl
    | cons c cs ih =>
      cases c with
      | none => simp [readCells] at h
      | some x =>
        cases hr : readCells cs with
        | none => simp [readCells, hr] at h
        | some ys =>
          simp only [readCells, hr, Option.map_some', Option.some.injEq] at h
          subst h
          rw [ih ys hr]
          rfl
  · intro h
    rw [h, readCells_map_some]

theorem readCells_eq_none (cs : List (Option Double)) :
    readCells cs = none ↔ none ∈ cs := by
  induction cs with
  | nil => simp [readCells]
  | cons c cs ih =>
    cases c with
    | none => simp [readCells]
    | some x =>
      simp only [readCells, Option.map_eq_none', ih, List.mem_cons, reduceCtorEq, false_or]

/-- The copy loop, started inside the block, returns the values of the cells
it walks, and is undefined when one of them is indeterminate. -/
theorem copyLoop_eq (buf : List (Option Double)) (n i : Nat) (res : List Double)
    (h : i + n ≤ buf.length) :
    copyLoop buf n i res =
      (readCells ((buf.drop i).take n)).map (fun out => res ++ out) := by
  induction n generalizing i res with
  | zero => simp [copyLoop, readCells]
  | succ n ih =>
    have hi : i < buf.length := by omega
    rw [List.drop_eq_getElem_cons hi, List.take_succ_cons]
    simp only [copyLoop, List.getElem?_eq_getElem hi]
    cases hc : buf[i] with
    | none => simp [readCells]
    | some x =>
      simp only [readCells]
      rw [ih (i + 1) (res ++ [x]) (by omega)]
      cases readCells (List.take n (List.drop (i + 1) buf)) <;> simp

/-- With a buffer of exactly `pixels` cells, the three results of
`getSpectrum` are as follows; the call is undefined exactly when the read
reports success and leaves an indeterminate cell. -/
theorem getSpectrum_held (E : Extern) (log : List Call) (s : Spectrometer)
    (buf : List (Option Double)) (hb : s.spectrumBuf = some buf) (hs : BufferSized s) :
    s.getSpectrum E log =
      if E.WP_SUCCESS = (E.wp_get_spectrum log s.specIndex s.pixels).1 then
        (readCells (overlayCells buf (E.wp_get_spectrum log s.specIndex s.pixels).2)).map
          (fun result => (result,
            { s with
              spectrumBuf :=
                some (overlayCells buf (E.wp_get_spectrum log s.specIndex s.pixels).2) },
            log ++ [Call.wp_get_spectrum s.specIndex s.pixels]))
      else
        some ([],
          { s with
            spectrumBuf :=
              some (overlayCells buf (E.wp_get_spectrum log s.specIndex s.pixels).2) },
          log ++ [Call.wp_get_spectrum s.specIndex s.pixels]) := by
  have hlen := (hs buf hb).2
  unfold Spectrometer.getSpectrum
  simp only [hb]
  split_ifs with hc
  · rw [copyLoop_eq _ _ _ _ (by rw [overlayCells_length]; omega)]
    simp only [List.nil_append, List.drop_zero]
    rw [← hlen, ← overlayCells_length buf (E.wp_get_spectrum log s.specIndex s.pixels).2,
      List.take_length]
    cases readCells (overlayCells buf (E.wp_get_spectrum log s.specIndex s.pixels).2) <;> rfl
  · rfl

theorem getSpectrum_null (E : Extern) (log : List Call) (s : Spectrometer)
    (hb : s.spectrumBuf = none) : s.getSpectrum E log = some ([], s, log) := by
  unfold Spectrometer.getSpectrum
  simp only [hb]

/-- A defined `getSpectrum` changes no member but the cells of the buffer. -/
theorem getSpectrum_frame (E : Extern) (log : List Call) (s : Spectrometer)
    (r : List Double × Spectrometer × List Call) (h : s.getSpectrum E log = some r) :
    r.2.1.specIndex = s.specIndex ∧ r.2.1.pixels = s.pixels ∧
    r.2.1.spectrumBuf.isSome = s.spectrumBuf.isSome ∧
    (BufferSized s → BufferSized r.2.1) := by
  cases hb : s.spectrumBuf with
  | none =>
    rw [getSpectrum_null E log s hb] at h
    simp only [Option.some.injEq] at h
    subst h
    exact ⟨rfl, rfl, by simp [hb], id⟩
  | some buf =>
    have key : ∀ (x : List Double) (l : List Call),
        r = (x, { s with
          spectrumBuf :=
            some (overlayCells buf (E.wp_get_spectrum log s.specIndex s.pixels).2) }, l) →
        r.2.1.specIndex = s.specIndex ∧ r.2.1.pixels = s.pixels ∧
        r.2.1.spectrumBuf.isSome = (some buf).isSome ∧
        (BufferSized s → BufferSized r.2.1) := by
      intro x l hr
      subst hr
      refine ⟨rfl, rfl, rfl, ?_⟩
      intro hs b hb2
      simp only [Option.some.injEq] at hb2
      refine ⟨(hs buf hb).1, ?_⟩
      rw [← hb2, overlayCells_length]
      exact (hs buf hb).2
    unfold Spectrometer.getSpectrum at h
    simp only [hb] at h
    split_ifs at h with hc
    · cases hcl : copyLoop (overlayCells buf (E.wp_get_spectrum log s.specIndex s.pixels).2)
          s.pixels.toNat 0 [] with
      | none => simp [hcl] at h
      | some result =>
        simp only [hcl, Option.some.injEq] at h
        exact key _ _ h.symm
    · simp only [Option.some.injEq] at h
      exact key _ _ h.symm

/-- The state and log left by `close`. -/
theorem close_eq (log : List Call) (s : Spectrometer) :
    s.close log =
      (true,
       { s with specIndex := if s.specIndex ≥ 0 then -1 else s.specIndex, spectrumBuf := none },
       if s.specIndex ≥ 0 then log ++ [Call.wp_close_spectrometer s.specIndex] else log) := by
  rcases s with ⟨idx, px, md, sn, wl, wn, ex, ee, buf⟩
  unfold Spectrometer.close
  by_cases h : idx ≥ 0 <;> cases buf <;> simp [h]

/-- The pixel count stored by the constructor is the answer of the probe. -/
theorem ctor_pixels (E : Extern) (log : List Call) (specIndex : Int) :
    (Spectrometer.ctor E log specIndex).1.pixels = ctorPixels E log specIndex := by
  unfold Spectrometer.ctor ctorPixels
  dsimp only
  split_ifs <;> rfl

/-- The constructor holds a buffer exactly when the pixel count is positive
and `malloc` returned a block; the block has `pixels` indeterminate cells. -/
theorem ctor_buffer (E : Extern) (log : List Call) (specIndex : Int) :
    (Spectrometer.ctor E log specIndex).1.spectrumBuf =
      if 0 < ctorPixels E log specIndex ∧ ctorAlloc E log specIndex = true
        then some (List.replicate (ctorPixels E log specIndex).toNat none)
        else none := by
  have h1 : ((Spectrometer.fresh specIndex).readEEPROMFields E log).2.1.spectrumBuf = none := by
    rw [readEEPROMFields_frame E log (Spectrometer.fresh specIndex)]; rfl
  unfold Spectrometer.ctor ctorAlloc ctorPixels
  dsimp only
  by_cases hp : E.wp_get_pixels ((Spectrometer.fresh specIndex).readEEPROMFields E log).2.2
      specIndex ≤ 0
  · simp only [hp, if_true, not_lt.mpr hp, false_and, if_false]
    exact h1
  · by_cases ha : E.malloc (((Spectrometer.fresh specIndex).readEEPROMFields E log).2.2 ++
        [Call.wp_get_pixels specIndex])
        (E.wp_get_pixels ((Spectrometer.fresh specIndex).readEEPROMFields E log).2.2
          specIndex) = true
    · simp only [hp, if_false, ha, if_true, not_le.mp hp, true_and]
      split_ifs <;> rfl
    · simp only [hp, if_false, ha, Bool.false_eq_true, and_false]
      split_ifs <;> rfl

theorem ctor_bufferSized (E : Extern) (log : List Call) (specIndex : Int) :
    BufferSized (Spectrometer.ctor E log specIndex).1 := by
  intro buf hb
  rw [ctor_buffer] at hb
  rw [ctor_pixels]
  split_ifs at hb with h
  refine ⟨h.1, ?_⟩
  simp only [Option.some.injEq] at hb
  rw [← hb, List.length_replicate]

/-- A property of sessions kept by `close` and by every defined `getSpectrum`
holds at the end of every defined sequence of operations. -/
theorem run_preserves (E : Extern) (P : Spectrometer → Prop)
    (hclose : ∀ s log, P s → P (s.close log).2.1)
    (hget : ∀ s log r, P s → s.getSpectrum E log = some r → P r.2.1)
    (ops : List Op) (st st1 : Spectrometer × List Call) (h : P st.1)
    (hrun : run E ops st = some st1) : P st1.1 := by
  induction ops generalizing st with
  | nil =>
    simp only [run, Option.some.injEq] at hrun
    rw [← hrun]
    exact h
  | cons op ops ih =>
    cases op with
    | close =>
      simp only [run, step, Option.some_bind] at hrun
      exact ih _ (hclose _ _ h) hrun
    | getSpectrum =>
      cases hg : st.1.getSpectrum E st.2 with
      | none => simp [run, step, hg] at hrun
      | some r =>
        simp only [run, step, hg, Option.map_some', Option.some_bind] at hrun
        exact ih _ (hget _ _ r h hg) hrun
    | setIntegrationTimeMS ms =>
      simp only [run, step, Option.some_bind] at hrun
      exact ih (st.1, (st.1.setIntegrationTimeMS E st.2 ms).2) h hrun
    | setLaserEnable flag =>
      simp only [run, step, Option.some_bind] at hrun
      exact ih (st.1, (st.1.setLaserEnable E st.2 flag).2) h hrun

theorem close_bufferSized (log : List Call) (s : Spectrometer) :
    BufferSized (s.close log).2.1 := by
  intro buf hb
  rw [close_eq] at hb
  simp at hb

/-- Every session state the code can produce has a consistent buffer. -/
theorem reachable_bufferSized (E : Extern) (s : Spectrometer) (h : Reachable E s) :
    BufferSized s := by
  obtain ⟨log0, specIndex, ops, log, hrun⟩ := h
  exact run_preserves E BufferSized
    (fun s log _ => close_bufferSized log s)
    (fun s log r hs hr => (getSpectrum_frame E log s r hr).2.2.2 hs)
    ops (Spectrometer.ctor E log0 specIndex) (s, log) (ctor_bufferSized E log0 specIndex) hrun

/-! ## C1: index stability -/

/-- C1 (index stability).  When the enumeration reports `N` with `0 < N` (an
`int`, so `N < 2 ^ 31`) and `size_t` has at least 32 bits, then
`openAllSpectrometers` returns `N`, the collection holds exactly `N` sessions
whose handles are `0, 1, ..., N-1` in that order, `getSpectrometer i` is the
session at position `i` for `0 ≤ i < N`, and `getSpectrometer i` is `nullptr`
for every `int` `i ≥ N` and every negative `int` `i` (the index being converted
to `size_t`, modulo `2 ^ w`, before the comparison). -/
theorem openAllSpectrometers_index_stability (E : Extern) (log : List Call) (d : Driver)
    (w : Nat) (hN : 0 < E.wp_open_all_spectrometers log)
    (hint : E.wp_open_all_spectrometers log < 2 ^ 31) (hw : 32 ≤ w) :
    (d.openAllSpectrometers E log).1 = E.wp_open_all_spectrometers log ∧
    ((d.openAllSpectrometers E log).2.1.spectrometers.length : Int) =
      E.wp_open_all_spectrometers log ∧
    (d.openAllSpectrometers E log).2.1.spectrometers.map (fun s => s.specIndex) =
      (List.range (E.wp_open_all_spectrometers log).toNat).map (fun (k : Nat) => (k : Int)) ∧
    (∀ i : Int, 0 ≤ i → i < E.wp_open_all_spectrometers log →
      ∃ s, (d.openAllSpectrometers E log).2.1.getSpectrometer w i = some s ∧
        (d.openAllSpectrometers E log).2.1.spectrometers[i.toNat]? = some s ∧
        s.specIndex = i) ∧
    (∀ i : Int, E.wp_open_all_spectrometers log ≤ i → i < 2 ^ 31 →
      (d.openAllSpectrometers E log).2.1.getSpectrometer w i = none) ∧
    (∀ i : Int, -2 ^ 31 ≤ i → i < 0 →
      (d.openAllSpectrometers E log).2.1.getSpectrometer w i = none) := by
  rw [openAllSpectrometers_pos E log d hN]
  generalize hNdef : E.wp_open_all_spectrometers log = N at hN hint ⊢
  generalize hss : (openLoop E N.toNat 0 [] (log ++ [Call.wp_open_all_spectrometers])).1 = ss
  have hmap : ss.map (fun s => s.specIndex) =
      (List.range N.toNat).map (fun (k : Nat) => (k : Int)) := by
    rw [← hss, openLoop_spec]
    simp
  have hlen : ss.length = N.toNat := by
    have := congrArg List.length hmap
    simpa using this
  refine ⟨rfl, ?_, hmap, ?_, ?_, ?_⟩
  · simp only [hlen]; omega
  · intro i h0 h1
    have hi : i.toNat < ss.length := by omega
    have hconv := toSizeT_nonneg w hw i h0 (by omega)
    refine ⟨ss.get ⟨i.toNat, hi⟩, ?_, ?_, ?_⟩
    · unfold Driver.getSpectrometer
      simp only [hconv, hi, dif_pos]
    · simp [List.getElem?_eq_getElem hi]
    · have h2 := congrArg (fun l => l[i.toNat]?) hmap
      simp only [List.getElem?_map, List.getElem?_eq_getElem hi, Option.map_some] at h2
      have h3 : i.toNat < (List.range N.toNat).length := by simp; omega
      simp only [List.getElem?_eq_getElem h3, List.getElem_range] at h2
      have h4 : ss[i.toNat].specIndex = (i.toNat : Int) := by simpa using h2
      simp only [List.get_eq_getElem]
      rw [h4]
      omega
  · intro i h0 h1
    have hconv := toSizeT_nonneg w hw i (by omega) h1
    unfold Driver.getSpectrometer
    have : ¬ ((i % 2 ^ w).toNat < ss.length) := by rw [hconv]; omega
    simp only [this, dif_neg, not_false_eq_true]
  · intro i h0 h1
    have hconv := toSizeT_neg w hw i h0 h1
    unfold Driver.getSpectrometer
    have : ¬ ((i % 2 ^ w).toNat < ss.length) := by omega
    simp only [this, dif_neg, not_false_eq_true]

/-- C1, at the driver `twoDevices` with a 64-bit `size_t`: the enumeration
returns 2, `getSpectrometer(5)` and `getSpectrometer(-1)` are `nullptr`. -/
theorem openAllSpectrometers_index_stability_witness :
    0 < twoDevices.wp_open_all_spectrometers [] ∧
    (Driver.init.openAllSpectrometers twoDevices []).1 = 2 ∧
    (Driver.init.openAllSpectrometers twoDevices []).2.1.getSpectrometer 64 5 = none ∧
    (Driver.init.openAllSpectrometers twoDevices []).2.1.getSpectrometer 64 (-1) = none :=
  have h := openAllSpectrometers_index_stability twoDevices [] Driver.init 64
    (by decide) (by decide) (by decide)
  ⟨by decide, h.1, h.2.2.2.2.1 5 (by decide) (by decide),
    h.2.2.2.2.2 (-1) (by decide) (by decide)⟩

/-- The scenario of the specification on `twoDevices`: the enumeration returns
2, session 0 has wavenumbers for each of its pixels, session 1 (excitation
`0`) has none, and `closeAllSpectrometers` returns true and empties the
registry. -/
theorem scenario_two_devices :
    (Driver.init.openAllSpectrometers twoDevices []).1 = 2 ∧
    (Driver.init.openAllSpectrometers twoDevices []).2.1.spectrometers.map
        (fun s => (s.specIndex, s.pixels, s.wavelengths.length, s.wavenumbers.length,
          s.model, s.serialNumber)) =
      [(0, 4, 4, 4, "WP-785", "S-0001"), (1, 2, 2, 0, "WP-532", "S-0002")] ∧
    ((Driver.init.openAllSpectrometers twoDevices []).2.1.closeAllSpectrometers
        (Driver.init.openAllSpectrometers twoDevices []).2.2).map
      (fun r => (r.1, r.2.1.spectrometers.length)) = some (true, 0) := by
  decide

/-! ## C2: buffer and handle -/

/-- The sessions pushed by the enumeration loop are constructor results for
indices from the loop variable upwards. -/
theorem openLoop_mem (E : Extern) (n : Nat) (i : Int) (ss : List Spectrometer)
    (log : List Call) (s : Spectrometer) (h : s ∈ (openLoop E n i ss log).1) :
    s ∈ ss ∨ ∃ l j, i ≤ j ∧ s = (Spectrometer.ctor E l j).1 := by
  induction n generalizing i ss log with
  | zero => exact Or.inl h
  | succ n ih =>
    simp only [openLoop] at h
    rcases ih _ _ _ h with h1 | ⟨l, j, hj, hs⟩
    · rcases List.mem_append.mp h1 with h2 | h2
      · exact Or.inl h2
      · exact Or.inr ⟨log, i, le_refl i, by simpa using h2⟩
    · exact Or.inr ⟨l, j, by omega, hs⟩

/-- Every session of the registry was constructed with a non-negative index. -/
theorem openAllSpectrometers_sessions (E : Extern) (log : List Call) (d : Driver)
    (s : Spectrometer) (h : s ∈ (d.openAllSpectrometers E log).2.1.spectrometers) :
    ∃ l j, 0 ≤ j ∧ s = (Spectrometer.ctor E l j).1 := by
  unfold Driver.openAllSpectrometers at h
  dsimp only at h
  split_ifs at h with hn
  · simp at h
  · rcases openLoop_mem E _ _ _ _ s h with h1 | h1
    · simp at h1
    · exact h1

/-- A session constructed with a non-negative index keeps a handle that is
non-negative or the sentinel `-1` through every sequence of operations. -/
theorem run_handle_range (E : Extern) (log0 : List Call) (specIndex : Int) (ops : List Op)
    (st : Spectrometer × List Call) (h : 0 ≤ specIndex)
    (hrun : run E ops (Spectrometer.ctor E log0 specIndex) = some st) :
    -1 ≤ st.1.specIndex :=
  run_preserves E (fun s => -1 ≤ s.specIndex)
    (fun s log _ => by
      show -1 ≤ (s.close log).2.1.specIndex
      rw [close_eq]
      dsimp only
      split_ifs <;> omega)
    (fun s log r hs hr => by
      show -1 ≤ r.2.1.specIndex
      rw [(getSpectrum_frame E log s r hr).1]
      exact hs)
    ops (Spectrometer.ctor E log0 specIndex) st
    (by
      show -1 ≤ (Spectrometer.ctor E log0 specIndex).1.specIndex
      rw [ctor_specIndex]; omega) hrun

/-- A session whose handle is negative is treated by `close` as closed: the
handle is kept and no driver call is made. -/
theorem close_negative_handle (s : Spectrometer) (log : List Call) (h : s.specIndex < 0) :
    (s.close log).2.1.specIndex = s.specIndex ∧ (s.close log).2.2 = log := by
  rw [close_eq]
  have : ¬ (s.specIndex ≥ 0) := by omega
  simp only [this, if_false, and_self]

/-- C3 (`close` is idempotent and terminal).  For every session state `s`:
`close` returns true and leaves the buffer null; it leaves the handle `-1`
(the handle of a session is a non-negative index or the sentinel `-1`, see
`run_handle_range`); on an already closed session (handle `-1`, buffer null)
it issues no driver call and changes no member; a second `close` returns
true, issues no driver call and changes nothing, so `close (close s)` is the
state of `close s`; and when `s` was open the two calls together issue exactly
one `wp_close_spectrometer`, for the handle of `s`. -/
theorem close_idempotent_terminal (s : Spectrometer) (log : List Call) :
    (s.close log).1 = true ∧
    (s.close log).2.1.spectrumBuf = none ∧
    (-1 ≤ s.specIndex → (s.close log).2.1.specIndex = -1) ∧
    (s.specIndex = -1 → s.spectrumBuf = none → s.close log = (true, s, log)) ∧
    (s.close log).2.1.close (s.close log).2.2 = (true, (s.close log).2.1, (s.close log).2.2) ∧
    (-1 ≤ s.specIndex → s.specIndex ≠ -1 →
      ((s.close log).2.1.close (s.close log).2.2).2.2 =
        log ++ [Call.wp_close_spectrometer s.specIndex]) := by
  have hneg : ¬ ((s.close log).2.1.specIndex ≥ 0) := by
    rw [close_eq]; dsimp only; split_ifs <;> omega
  have hbuf : (s.close log).2.1.spectrumBuf = none := by rw [close_eq]
  have hnoop : ∀ (t : Spectrometer) (l : List Call), ¬ (t.specIndex ≥ 0) →
      t.spectrumBuf = none → t.close l = (true, t, l) := by
    intro t l h1 h2
    rcases t with ⟨idx, px, md, sn, wl, wn, ex, ee, buf⟩
    simp only at h1 h2
    subst h2
    rw [close_eq]
    simp [h1]
  refine ⟨by rw [close_eq], hbuf, ?_, ?_, hnoop _ _ hneg hbuf, ?_⟩
  · intro h
    rw [close_eq]; dsimp only; split_ifs <;> omega
  · intro h1 h2
    exact hnoop s log (by omega) h2
  · intro h1 hopen
    rw [hnoop _ _ hneg hbuf, close_eq]
    have : s.specIndex ≥ 0 := by omega
    simp only [this, if_true]

/-- C3, at the session of device 1 of `twoDevices`: the handle 1 is closed by
one driver call, and the second `close` adds none. -/
theorem close_idempotent_terminal_witness :
    -1 ≤ (Spectrometer.ctor twoDevices [] 1).1.specIndex ∧
    ((Spectrometer.ctor twoDevices [] 1).1.close []).2.1.specIndex = -1 ∧
    ((Spectrometer.ctor twoDevices [] 1).1.close []).2.1.spectrumBuf = none ∧
    ((((Spectrometer.ctor twoDevices [] 1).1.close []).2.1.close
        ((Spectrometer.ctor twoDevices [] 1).1.close []).2.2).2.2 =
      [] ++ [Call.wp_close_spectrometer (Spectrometer.ctor twoDevices [] 1).1.specIndex]) :=
  have h := close_idempotent_terminal (Spectrometer.ctor twoDevices [] 1).1 []
  ⟨by decide, h.2.2.1 (by decide), h.2.1, h.2.2.2.2.2 (by decide) (by decide)⟩

/-! ## C4: getSpectrum -/

/-- A read leaves no indeterminate cell in a block that had none. -/
theorem overlayCells_init (old : List (Option Double)) (written : List Double)
    (h : none ∉ old) : none ∉ overlayCells old written := by
  unfold overlayCells
  intro hm
  rcases List.mem_append.mp (List.mem_of_mem_take hm) with h1 | h1
  · simp at h1
  · exact h (List.mem_of_mem_drop h1)

/-- C4 as stated fails: on a driver whose read writes one cell of the three
and reports success, the freshly constructed session holds three
indeterminate cells, and `getSpectrum` copies cells that were never written:
the call is undefined. -/
theorem getSpectrum_result_shape_counterexample :
    Reachable shortRead (Spectrometer.ctor shortRead [] 0).1 ∧
    (Spectrometer.ctor shortRead [] 0).1.spectrumBuf = some [none, none, none] ∧
    (Spectrometer.ctor shortRead [] 0).1.pixels = 3 ∧
    shortRead.wp_get_spectrum (Spectrometer.ctor shortRead [] 0).2 0 3 =
      (shortRead.WP_SUCCESS, [7]) ∧
    ((Spectrometer.ctor shortRead [] 0).1.getSpectrum shortRead
      (Spectrometer.ctor shortRead [] 0).2).isSome = false := by
  refine ⟨⟨[], 0, [], (Spectrometer.ctor shortRead [] 0).2, rfl⟩, ?_, ?_, ?_, ?_⟩ <;> decide

/-- C4, amended.  For every session state the code can produce and every
behaviour of the driver.  When the buffer is held, the read reports
`WP_SUCCESS` and every cell of the buffer has been written, by this read or
before it (which is so when this read writes all `pixels` cells),
`getSpectrum` returns a sequence of length `pixels` that is the buffer as left
by that read (the cells the read wrote, when it wrote all `pixels` of them),
the buffer stays held with these contents and no other member changes.  When
the read reports `WP_SUCCESS` and leaves a cell that was never written, the
copy reads an indeterminate value and the call is undefined.  When the buffer
is null the result is empty and no call is made; when the read fails the
result is empty.  Two consecutive successful calls, the first of which leaves
no cell unwritten, each return a sequence of length `pixels`. -/
theorem getSpectrum_result_shape (E : Extern) (s : Spectrometer) (log : List Call)
    (h : Reachable E s) :
    (∀ buf, s.spectrumBuf = some buf →
      E.WP_SUCCESS = (E.wp_get_spectrum log s.specIndex s.pixels).1 →
      none ∉ overlayCells buf (E.wp_get_spectrum log s.specIndex s.pixels).2 →
      ∃ result,
        s.getSpectrum E log =
          some (result, { s with spectrumBuf := some (result.map some) },
            log ++ [Call.wp_get_spectrum s.specIndex s.pixels]) ∧
        (result.length : Int) = s.pixels ∧
        result.map some = overlayCells buf (E.wp_get_spectrum log s.specIndex s.pixels).2 ∧
        (((E.wp_get_spectrum log s.specIndex s.pixels).2.length : Int) = s.pixels →
          result = (E.wp_get_spectrum log s.specIndex s.pixels).2)) ∧
    (∀ buf, s.spectrumBuf = some buf →
      s.pixels ≤ ((E.wp_get_spectrum log s.specIndex s.pixels).2.length : Int) →
      none ∉ overlayCells buf (E.wp_get_spectrum log s.specIndex s.pixels).2) ∧
    (∀ buf, s.spectrumBuf = some buf →
      E.WP_SUCCESS = (E.wp_get_spectrum log s.specIndex s.pixels).1 →
      none ∈ overlayCells buf (E.wp_get_spectrum log s.specIndex s.pixels).2 →
      s.getSpectrum E log = none) ∧
    (s.spectrumBuf = none → s.getSpectrum E log = some ([], s, log)) ∧
    (∀ buf, s.spectrumBuf = some buf →
      E.WP_SUCCESS ≠ (E.wp_get_spectrum log s.specIndex s.pixels).1 →
      ∃ s1, s.getSpectrum E log =
        some ([], s1, log ++ [Call.wp_get_spectrum s.specIndex s.pixels])) ∧
    (∀ buf, s.spectrumBuf = some buf →
      E.WP_SUCCESS = (E.wp_get_spectrum log s.specIndex s.pixels).1 →
      none ∉ overlayCells buf (E.wp_get_spectrum log s.specIndex s.pixels).2 →
      E.WP_SUCCESS = (E.wp_get_spectrum (log ++ [Call.wp_get_spectrum s.specIndex s.pixels])
        s.specIndex s.pixels).1 →
      ∃ r1 s1 log1 r2 s2 log2,
        s.getSpectrum E log = some (r1, s1, log1) ∧
        s1.getSpectrum E log1 = some (r2, s2, log2) ∧
        (r1.length : Int) = s.pixels ∧ (r2.length : Int) = s.pixels) := by
  have hs := reachable_bufferSized E s h
  have hlen : ∀ buf, s.spectrumBuf = some buf → ∀ written,
      ((overlayCells buf written).length : Int) = s.pixels := by
    intro buf hb written
    rw [overlayCells_length, (hs buf hb).2]
    have := (hs buf hb).1
    omega
  have hdef : ∀ (t : Spectrometer) (l : List Call) (buf : List (Option Double)),
      t.spectrumBuf = some buf → BufferSized t →
      E.WP_SUCCESS = (E.wp_get_spectrum l t.specIndex t.pixels).1 →
      none ∉ overlayCells buf (E.wp_get_spectrum l t.specIndex t.pixels).2 →
      ∃ result,
        t.getSpectrum E l =
          some (result, { t with spectrumBuf := some (result.map some) },
            l ++ [Call.wp_get_spectrum t.specIndex t.pixels]) ∧
        result.map some = overlayCells buf (E.wp_get_spectrum l t.specIndex t.pixels).2 := by
    intro t l buf hb ht hc hinit
    cases hr : readCells (overlayCells buf (E.wp_get_spectrum l t.specIndex t.pixels).2) with
    | none => exact absurd ((readCells_eq_none _).mp hr) hinit
    | some result =>
      have hmap := (readCells_eq_some _ _).mp hr
      refine ⟨result, ?_, hmap.symm⟩
      rw [getSpectrum_held E l t buf hb ht, if_pos hc, hr, ← hmap]
      rfl
  refine ⟨?_, ?_, ?_, getSpectrum_null E log s, ?_, ?_⟩
  · intro buf hb hc hinit
    obtain ⟨result, hres, hmap⟩ := hdef s log buf hb hs hc hinit
    refine ⟨result, hres, ?_, hmap, ?_⟩
    · have := hlen buf hb (E.wp_get_spectrum log s.specIndex s.pixels).2
      rw [← hmap, List.length_map] at this
      exact this
    · intro hw
      have h1 := (hs buf hb).1
      have h2 := (hs buf hb).2
      have h3 : buf.length = (E.wp_get_spectrum log s.specIndex s.pixels).2.length := by omega
      rw [overlayCells_full buf _ (by omega), h3, List.take_length] at hmap
      exact List.map_injective_iff.mpr (Option.some_injective _) hmap
  · intro buf hb hw
    have h1 := (hs buf hb).1
    have h2 := (hs buf hb).2
    rw [overlayCells_full buf _ (by omega)]
    intro hm
    obtain ⟨x, -, hx⟩ := List.mem_map.mp hm
    exact absurd hx (by simp)
  · intro buf hb hc hindet
    rw [getSpectrum_held E log s buf hb hs, if_pos hc, (readCells_eq_none _).mpr hindet]
    rfl
  · intro buf hb hc
    refine ⟨{ s with
      spectrumBuf := some (overlayCells buf (E.wp_get_spectrum log s.specIndex s.pixels).2) }, ?_⟩
    rw [getSpectrum_held E log s buf hb hs, if_neg hc]
  · intro buf hb hc1 hinit hc2
    obtain ⟨r1, hres1, hmap1⟩ := hdef s log buf hb hs hc1 hinit
    have hs1 : BufferSized { s with spectrumBuf := some (r1.map some) } := by
      intro b hb2
      simp only [Option.some.injEq] at hb2
      refine ⟨(hs buf hb).1, ?_⟩
      rw [← hb2, hmap1, overlayCells_length]
      exact (hs buf hb).2
    have hinit2 : none ∉ overlayCells (r1.map some)
        (E.wp_get_spectrum (log ++ [Call.wp_get_spectrum s.specIndex s.pixels])
          s.specIndex s.pixels).2 :=
      overlayCells_init _ _ (by rw [hmap1]; exact hinit)
    obtain ⟨r2, hres2, hmap2⟩ := hdef { s with spectrumBuf := some (r1.map some) }
      (log ++ [Call.wp_get_spectrum s.specIndex s.pixels]) (r1.map some) rfl hs1 hc2 hinit2
    have hl1 : (r1.length : Int) = s.pixels := by
      have := hlen buf hb (E.wp_get_spectrum log s.specIndex s.pixels).2
      rw [← hmap1, List.length_map] at this
      exact this
    refine ⟨r1, _, _, r2, _, _, hres1, hres2, hl1, ?_⟩
    have := congrArg List.length hmap2
    rw [List.length_map, overlayCells_length, List.length_map] at this
    omega

/-- C4 amended, at the freshly constructed session of device 0 of
`twoDevices`, whose read writes all four cells: the read returns four values
and leaves them in the buffer. -/
theorem getSpectrum_result_shape_witness :
    Reachable twoDevices (Spectrometer.ctor twoDevices [] 0).1 ∧
    ∃ result,
      (Spectrometer.ctor twoDevices [] 0).1.getSpectrum twoDevices [] =
        some (result,
          { (Spectrometer.ctor twoDevices [] 0).1 with spectrumBuf := some (result.map some) },
          [] ++ [Call.wp_get_spectrum (Spectrometer.ctor twoDevices [] 0).1.specIndex
            (Spectrometer.ctor twoDevices [] 0).1.pixels]) ∧
      (result.length : Int) = (Spectrometer.ctor twoDevices [] 0).1.pixels :=
  have hr : Reachable twoDevices (Spectrometer.ctor twoDevices [] 0).1 :=
    ⟨[], 0, [], (Spectrometer.ctor twoDevices [] 0).2, rfl⟩
  have h := (getSpectrum_result_shape twoDevices _ [] hr).1 [none, none, none, none]
    (by decide) (by decide) (by decide)
  ⟨hr, h.choose, h.choose_spec.1, h.choose_spec.2.1⟩

/-! ## The calibration mapping -/

theorem insert_apply (m : StrMap) (k v x : String) :
    m.insert k v x = if x = k then some ((m k).getD v) else m x := by
  unfold StrMap.insert
  split_ifs with h
  · cases hm : m k <;> simp
  · rfl

theorem index_fst (m : StrMap) (k : String) : (m.index k).1 = (m k).getD "" := by
  unfold StrMap.index
  cases hm : m k <;> simp

theorem index_snd (m : StrMap) (k x : String) :
    (m.index k).2 x = if x = k then some ((m k).getD "") else m x := by
  unfold StrMap.index
  cases hm : m k with
  | none => simp
  | some v =>
    simp only [Option.getD_some]
    split_ifs with h
    · rw [h, hm]
    · rfl

theorem insertLoop_succ (names values : Nat → String) (n : Nat) (m : StrMap) :
    insertLoop names values (n + 1) m =
      (insertLoop names values n m).insert (names n) (values n) := by
  unfold insertLoop
  rw [List.range_succ, List.foldl_append]
  rfl

/-- A key already in the map keeps its value through the insertion loop. -/
theorem insertLoop_present (names values : Nat → String) (n : Nat) (m : StrMap)
    (k v : String) (h : m k = some v) : insertLoop names values n m k = some v := by
  induction n with
  | zero => exact h
  | succ n ih =>
    rw [insertLoop_succ, insert_apply]
    split_ifs with hk
    · rw [← hk, ih]; rfl
    · exact ih

/-- A key that is neither in the map nor among the names stays absent. -/
theorem insertLoop_absent (names values : Nat → String) (n : Nat) (m : StrMap)
    (k : String) (h : m k = none) (hn : ∀ j, j < n → names j ≠ k) :
    insertLoop names values n m k = none := by
  induction n with
  | zero => exact h
  | succ n ih =>
    rw [insertLoop_succ, insert_apply]
    have hk : k ≠ names n := fun e => hn n (Nat.lt_succ_self n) e.symm
    rw [if_neg hk]
    exact ih (fun j hj => hn j (Nat.lt_succ_of_lt hj))

/-- A key absent from the map gets the value of its first occurrence. -/
theorem insertLoop_first (names values : Nat → String) (n : Nat) (m : StrMap)
    (j : Nat) (hj : j < n) (h : m (names j) = none) (hfirst : ∀ i, i < j → names i ≠ names j) :
    insertLoop names values n m (names j) = some (values j) := by
  induction n with
  | zero => omega
  | succ n ih =>
    rw [insertLoop_succ, insert_apply]
    by_cases hjn : j < n
    · split_ifs with hk
      · rw [← hk, ih hjn]; rfl
      · exact ih hjn
    · have hjn2 : j = n := by omega
      subst hjn2
      rw [if_pos rfl, insertLoop_absent names values j m (names j) h hfirst]
      rfl

/-! ## C6: duplicate calibration names -/

/-- C6 as stated fails: with the names `gain`, `gain` and the values `1.0`,
`2.0`, the call succeeds and maps `gain` to `1.0`, the value at the smallest
index, although the largest index holding that name is 1 with value `2.0`. -/
theorem readEEPROMFields_last_write_counterexample :
    ((Spectrometer.fresh 0).readEEPROMFields duplicateNames []).1 = true ∧
    ((Spectrometer.fresh 0).readEEPROMFields duplicateNames []).2.1.eepromFields "gain" =
      some "1.0" ∧
    (duplicateNames.wp_get_eeprom [Call.wp_get_eeprom_field_count 0] 0 2).2.1 1 = "gain" ∧
    (duplicateNames.wp_get_eeprom [Call.wp_get_eeprom_field_count 0] 0 2).2.2 1 = "2.0" ∧
    ((Spectrometer.fresh 0).readEEPROMFields duplicateNames []).2.1.eepromFields "gain" ≠
      some ((duplicateNames.wp_get_eeprom [Call.wp_get_eeprom_field_count 0] 0 2).2.2 1) := by
  decide

/-- C6, amended (first write wins).  When `readEEPROMFields` runs on a session
with an empty mapping, the field count is positive and the retrieval reports
`WP_SUCCESS`, then it returns true, the keys of the resulting mapping are
exactly the retrieved names, and every name is mapped to `values[j]` for the
SMALLEST index `j` with `names[j]` equal to that name. -/
theorem readEEPROMFields_first_write_wins (E : Extern) (log : List Call) (self : Spectrometer)
    (hempty : self.eepromFields = StrMap.empty)
    (hcount : 0 < E.wp_get_eeprom_field_count log self.specIndex)
    (hok : E.WP_SUCCESS =
      (E.wp_get_eeprom (log ++ [Call.wp_get_eeprom_field_count self.specIndex]) self.specIndex
        (E.wp_get_eeprom_field_count log self.specIndex)).1) :
    (self.readEEPROMFields E log).1 = true ∧
    (∀ k, (self.readEEPROMFields E log).2.1.eepromFields k ≠ none ↔
      ∃ j, j < (E.wp_get_eeprom_field_count log self.specIndex).toNat ∧
        (E.wp_get_eeprom (log ++ [Call.wp_get_eeprom_field_count self.specIndex]) self.specIndex
          (E.wp_get_eeprom_field_count log self.specIndex)).2.1 j = k) ∧
    (∀ j, j < (E.wp_get_eeprom_field_count log self.specIndex).toNat →
      (∀ i, i < j →
        (E.wp_get_eeprom (log ++ [Call.wp_get_eeprom_field_count self.specIndex]) self.specIndex
          (E.wp_get_eeprom_field_count log self.specIndex)).2.1 i ≠
        (E.wp_get_eeprom (log ++ [Call.wp_get_eeprom_field_count self.specIndex]) self.specIndex
          (E.wp_get_eeprom_field_count log self.specIndex)).2.1 j) →
      (self.readEEPROMFields E log).2.1.eepromFields
        ((E.wp_get_eeprom (log ++ [Call.wp_get_eeprom_field_count self.specIndex]) self.specIndex
          (E.wp_get_eeprom_field_count log self.specIndex)).2.1 j) =
      some ((E.wp_get_eeprom (log ++ [Call.wp_get_eeprom_field_count self.specIndex])
        self.specIndex (E.wp_get_eeprom_field_count log self.specIndex)).2.2 j)) := by
  generalize hr : E.wp_get_eeprom (log ++ [Call.wp_get_eeprom_field_count self.specIndex])
    self.specIndex (E.wp_get_eeprom_field_count log self.specIndex) = r at hok ⊢
  have hres : self.readEEPROMFields E log =
      (true,
       { self with
         eepromFields := insertLoop r.2.1 r.2.2
           (E.wp_get_eeprom_field_count log self.specIndex).toNat self.eepromFields },
       log ++ [Call.wp_get_eeprom_field_count self.specIndex] ++
         [Call.wp_get_eeprom self.specIndex (E.wp_get_eeprom_field_count log self.specIndex)]) := by
    unfold Spectrometer.readEEPROMFields
    simp only [not_le.mpr hcount, if_false, hr, ne_eq, hok, not_true_eq_false]
  rw [hres]
  dsimp only
  rw [hempty]
  refine ⟨rfl, ?_, ?_⟩
  · intro k
    constructor
    · intro hne
      by_contra hex
      apply hne
      apply insertLoop_absent _ _ _ _ _ rfl
      intro j hj hjk
      exact hex ⟨j, hj, hjk⟩
    · rintro ⟨j, hj, hjk⟩
      obtain ⟨j0, hj0, hmin⟩ : ∃ j0, (j0 < (E.wp_get_eeprom_field_count log self.specIndex).toNat ∧
          r.2.1 j0 = k) ∧ ∀ i, i < j0 →
            ¬ (i < (E.wp_get_eeprom_field_count log self.specIndex).toNat ∧ r.2.1 i = k) := by
        classical
        have hex : ∃ j0, j0 < (E.wp_get_eeprom_field_count log self.specIndex).toNat ∧
            r.2.1 j0 = k := ⟨j, hj, hjk⟩
        exact ⟨Nat.find hex, Nat.find_spec hex, fun i hi => Nat.find_min hex hi⟩
      rw [← hj0.2, insertLoop_first _ _ _ _ j0 hj0.1 rfl]
      · simp
      · intro i hi hik
        exact hmin i hi ⟨by omega, hik.trans hj0.2⟩
  · intro j hj hfirst
    exact insertLoop_first _ _ _ _ j hj rfl hfirst

/-- C6 amended, at device 0 of `twoDevices`: three distinct names. -/
theorem readEEPROMFields_first_write_wins_witness :
    (Spectrometer.fresh 0).eepromFields = StrMap.empty ∧
    0 < twoDevices.wp_get_eeprom_field_count [] (Spectrometer.fresh 0).specIndex ∧
    ((Spectrometer.fresh 0).readEEPROMFields twoDevices []).1 = true :=
  ⟨rfl, by decide,
    (readEEPROMFields_first_write_wins twoDevices [] (Spectrometer.fresh 0) rfl
      (by decide) (by decide)).1⟩

/-! ## The constructed session -/

/-- The text the constructor hands to `atof`: the field `excitationNM` of the
mapping built by `readEEPROMFields`, or the empty string when it is missing. -/
theorem excitation_text (m : StrMap) :
    ((((m.index "model").2.index "serialNumber").2.index "excitationNM").1) =
      (m "excitationNM").getD "" := by
  simp [index_fst, index_snd]

/-- The session built when the pixel-count probe answers a value `≤ 0`. -/
theorem ctor_nonpos (E : Extern) (log : List Call) (specIndex : Int)
    (h : ctorPixels E log specIndex ≤ 0) :
    (Spectrometer.ctor E log specIndex).1 =
      { Spectrometer.fresh specIndex with
        eepromFields := ctorFields E log specIndex, pixels := ctorPixels E log specIndex } := by
  have hf := readEEPROMFields_frame E log (Spectrometer.fresh specIndex)
  unfold ctorPixels at h
  unfold Spectrometer.ctor ctorPixels ctorFields
  dsimp only
  rw [if_pos h]
  dsimp only
  rw [hf]

/-- The members of the session built when the pixel-count probe answers a
positive value. -/
theorem ctor_pos (E : Extern) (log : List Call) (specIndex : Int)
    (h : 0 < ctorPixels E log specIndex) :
    (Spectrometer.ctor E log specIndex).1.model =
      (ctorFields E log specIndex "model").getD "" ∧
    (Spectrometer.ctor E log specIndex).1.serialNumber =
      (ctorFields E log specIndex "serialNumber").getD "" ∧
    (Spectrometer.ctor E log specIndex).1.eepromFields =
      ((((ctorFields E log specIndex).index "model").2.index "serialNumber").2.index
        "excitationNM").2 ∧
    (Spectrometer.ctor E log specIndex).1.wavelengths.length =
      (ctorPixels E log specIndex).toNat ∧
    (Spectrometer.ctor E log specIndex).1.excitationNM =
      E.atof ((ctorFields E log specIndex "excitationNM").getD "") ∧
    (0 < E.atof ((ctorFields E log specIndex "excitationNM").getD "") →
      (Spectrometer.ctor E log specIndex).1.wavenumbers.length =
        (ctorPixels E log specIndex).toNat) ∧
    (¬ 0 < E.atof ((ctorFields E log specIndex "excitationNM").getD "") →
      (Spectrometer.ctor E log specIndex).1.wavenumbers = []) := by
  have hf := readEEPROMFields_frame E log (Spectrometer.fresh specIndex)
  have hwn : ((Spectrometer.fresh specIndex).readEEPROMFields E log).2.1.wavenumbers = [] := by
    rw [hf]; rfl
  have hp : ¬ E.wp_get_pixels ((Spectrometer.fresh specIndex).readEEPROMFields E log).2.2
      specIndex ≤ 0 := not_le.mpr h
  have htext := excitation_text (ctorFields E log specIndex)
  unfold ctorFields at htext
  unfold Spectrometer.ctor ctorPixels ctorFields
  dsimp only
  rw [if_neg hp, htext]
  by_cases hex : E.atof ((((Spectrometer.fresh specIndex).readEEPROMFields E log).2.1.eepromFields
      "excitationNM").getD "") > 0
  · rw [if_pos hex]
    dsimp only
    refine ⟨by rw [index_fst], by rw [index_fst, index_snd]; simp, rfl, ?_, rfl, ?_, ?_⟩
    · rw [overlay_length, resize_length]
    · intro _
      rw [overlay_length, resize_length]
    · intro hn
      exact absurd hex hn
  · rw [if_neg hex]
    dsimp only
    refine ⟨by rw [index_fst], by rw [index_fst, index_snd]; simp, rfl, ?_, rfl, ?_, ?_⟩
    · rw [overlay_length, resize_length]
    · intro hpos
      exact absurd hpos hex
    · intro _
      exact hwn

/-! ## C5: wavelengths and wavenumbers -/

/-- The early return of the constructor: on a driver whose pixel-count probe
answers `-1`, nothing is parsed although the field `excitationNM` holds
`785.0`; the member `excitationNM` keeps its initial value and both axes are
empty. -/
theorem ctor_early_return :
    ctorFields negativePixels [] 0 "excitationNM" = some "785.0" ∧
    (Spectrometer.ctor negativePixels [] 0).1.pixels = -1 ∧
    (Spectrometer.ctor negativePixels [] 0).1.excitationNM = 0 ∧
    (Spectrometer.ctor negativePixels [] 0).1.wavelengths = [] ∧
    (Spectrometer.ctor negativePixels [] 0).1.wavenumbers = [] := by
  decide

/-- C5 (conditional wavenumbers).  For every session produced by the
constructor, with the parsed excitation value being the member `excitationNM`
that the constructor assigns from `atof` of the calibration field
`excitationNM` (of the empty text when the field is missing) once the pixel
count is known to be positive: `wavenumbers` has length `pixels` when the
parsed value is strictly positive and is empty otherwise, in particular when
the field is missing, holds zero, or holds unparseable text; `wavelengths` has
length `pixels` whenever `pixels > 0` and is empty when the pixel-count probe
answers a value `≤ 0`. -/
theorem ctor_axes_lengths (E : Extern) (log : List Call) (specIndex : Int) :
    (Spectrometer.ctor E log specIndex).1.pixels = ctorPixels E log specIndex ∧
    (0 < (Spectrometer.ctor E log specIndex).1.pixels →
      ((Spectrometer.ctor E log specIndex).1.wavelengths.length : Int) =
        (Spectrometer.ctor E log specIndex).1.pixels) ∧
    (ctorPixels E log specIndex ≤ 0 → (Spectrometer.ctor E log specIndex).1.wavelengths = []) ∧
    (0 < (Spectrometer.ctor E log specIndex).1.excitationNM →
      ((Spectrometer.ctor E log specIndex).1.wavenumbers.length : Int) =
        (Spectrometer.ctor E log specIndex).1.pixels) ∧
    (¬ 0 < (Spectrometer.ctor E log specIndex).1.excitationNM →
      (Spectrometer.ctor E log specIndex).1.wavenumbers = []) ∧
    (0 < ctorPixels E log specIndex →
      (Spectrometer.ctor E log specIndex).1.excitationNM =
        E.atof ((ctorFields E log specIndex "excitationNM").getD "")) ∧
    (ctorPixels E log specIndex ≤ 0 → (Spectrometer.ctor E log specIndex).1.excitationNM = 0) ∧
    (ctorFields E log specIndex "excitationNM" = none →
      (Spectrometer.ctor E log specIndex).1.wavenumbers = []) ∧
    (∀ t, ctorFields E log specIndex "excitationNM" = some t → zeroText t = true →
      (Spectrometer.ctor E log specIndex).1.wavenumbers = []) ∧
    (∀ t, ctorFields E log specIndex "excitationNM" = some t → noConversion t = true →
      (Spectrometer.ctor E log specIndex).1.wavenumbers = []) := by
  have hpix := ctor_pixels E log specIndex
  by_cases hp : 0 < ctorPixels E log specIndex
  · obtain ⟨-, -, -, hwl, hex, hwn1, hwn0⟩ := ctor_pos E log specIndex hp
    have hzero : E.atof ((ctorFields E log specIndex "excitationNM").getD "") = 0 →
        (Spectrometer.ctor E log specIndex).1.wavenumbers = [] := by
      intro h0
      apply hwn0
      rw [h0]
      exact lt_irrefl 0
    refine ⟨hpix, ?_, ?_, ?_, ?_, ?_, ?_, ?_, ?_, ?_⟩
    · intro _
      rw [hwl, hpix]
      omega
    · intro hn
      omega
    · intro hpos
      rw [hex] at hpos
      rw [hwn1 hpos, hpix]
      omega
    · intro hneg
      rw [hex] at hneg
      exact hwn0 hneg
    · intro _
      exact hex
    · intro hn
      omega
    · intro hmiss
      apply hzero
      rw [hmiss]
      exact E.atof_noConversion "" (by decide)
    · intro t ht hz
      apply hzero
      rw [ht]
      exact E.atof_zeroText t hz
    · intro t ht hu
      apply hzero
      rw [ht]
      exact E.atof_noConversion t hu
  · have hnp : ctorPixels E log specIndex ≤ 0 := not_lt.mp hp
    have hst := ctor_nonpos E log specIndex hnp
    have hwn : (Spectrometer.ctor E log specIndex).1.wavenumbers = [] := by rw [hst]; rfl
    have hex : (Spectrometer.ctor E log specIndex).1.excitationNM = 0 := by rw [hst]; rfl
    refine ⟨hpix, ?_, ?_, ?_, fun _ => hwn, ?_, fun _ => hex, fun _ => hwn,
      fun _ _ _ => hwn, fun _ _ _ => hwn⟩
    · intro h1
      rw [hpix] at h1
      omega
    · intro _
      rw [hst]
      rfl
    · intro hpos
      rw [hex] at hpos
      exact absurd hpos (lt_irrefl 0)
    · intro h1
      omega

/-- C5, at the two sessions of `twoDevices`: device 0 (excitation `785.0`,
4 pixels) has four wavenumbers, device 1 (excitation `0`) has none. -/
theorem ctor_axes_lengths_witness :
    0 < (Spectrometer.ctor twoDevices [] 0).1.excitationNM ∧
    ((Spectrometer.ctor twoDevices [] 0).1.wavenumbers.length : Int) =
      (Spectrometer.ctor twoDevices [] 0).1.pixels ∧
    ctorFields twoDevices [] 1 "excitationNM" = some "0" ∧ zeroText "0" = true ∧
    (Spectrometer.ctor twoDevices [] 1).1.wavenumbers = [] :=
  ⟨by decide, (ctor_axes_lengths twoDevices [] 0).2.2.2.1 (by decide), by decide, by decide,
    (ctor_axes_lengths twoDevices [] 1).2.2.2.2.2.2.2.2.1 "0" (by decide) (by decide)⟩

/-! ## C9: the calibration mapping after construction -/

/-- C9 as stated fails: on a driver that reports no calibration field and
3 pixels, `readEEPROMFields` fails and builds an empty mapping, yet the
constructed session maps `model`, `serialNumber` and `excitationNM` to the
empty string: the three lookups added their keys. -/
theorem ctor_mapping_counterexample :
    ((Spectrometer.fresh 0).readEEPROMFields noFields []).1 = false ∧
    (Spectrometer.ctor noFields [] 0).1.pixels = 3 ∧
    ctorFields noFields [] 0 "model" = none ∧
    (Spectrometer.ctor noFields [] 0).1.eepromFields "model" = some "" ∧
    (Spectrometer.ctor noFields [] 0).1.eepromFields "serialNumber" = some "" ∧
    (Spectrometer.ctor noFields [] 0).1.eepromFields "excitationNM" = some "" ∧
    (Spectrometer.ctor noFields [] 0).1.eepromFields ≠ ctorFields noFields [] 0 ∧
    (Spectrometer.ctor noFields [] 0).1.eepromFields ≠ StrMap.empty := by
  refine ⟨by decide, by decide, by decide, by decide, by decide, by decide, ?_, ?_⟩
  · intro h
    have := congrFun h "model"
    revert this
    decide
  · intro h
    have := congrFun h "model"
    revert this
    decide

/-- C9, amended.  For every session produced by the constructor: when
`readEEPROMFields` fails the mapping it built is empty; when the pixel-count
probe answers a value `≤ 0` the session keeps exactly that mapping and `model`
and `serialNumber` are empty; when the probe answers a positive value the
session's mapping is that mapping with the keys `model`, `serialNumber` and
`excitationNM` added, each mapped to the empty string when it was missing, and
unchanged for every other key, while `model` and `serialNumber` are the values
of their fields, the empty string when missing. -/
theorem ctor_calibration_mapping (E : Extern) (log : List Call) (specIndex : Int) :
    (((Spectrometer.fresh specIndex).readEEPROMFields E log).1 = false →
      ctorFields E log specIndex = StrMap.empty) ∧
    (ctorPixels E log specIndex ≤ 0 →
      (Spectrometer.ctor E log specIndex).1.eepromFields = ctorFields E log specIndex ∧
      (Spectrometer.ctor E log specIndex).1.model = "" ∧
      (Spectrometer.ctor E log specIndex).1.serialNumber = "") ∧
    (0 < ctorPixels E log specIndex →
      (∀ k, (Spectrometer.ctor E log specIndex).1.eepromFields k =
        if k = "model" ∨ k = "serialNumber" ∨ k = "excitationNM"
          then some ((ctorFields E log specIndex k).getD "")
          else ctorFields E log specIndex k) ∧
      (Spectrometer.ctor E log specIndex).1.model =
        (ctorFields E log specIndex "model").getD "" ∧
      (Spectrometer.ctor E log specIndex).1.serialNumber =
        (ctorFields E log specIndex "serialNumber").getD "") := by
  refine ⟨?_, ?_, ?_⟩
  · unfold ctorFields Spectrometer.readEEPROMFields
    dsimp only
    split_ifs
    · intro _; rfl
    · intro _; rfl
    · intro h; exact absurd h (by decide)
  · intro hp
    rw [ctor_nonpos E log specIndex hp]
    exact ⟨rfl, rfl, rfl⟩
  · intro hp
    obtain ⟨hm, hs, hmap, -⟩ := ctor_pos E log specIndex hp
    refine ⟨?_, hm, hs⟩
    intro k
    rw [hmap]
    simp only [index_snd]
    by_cases h1 : k = "excitationNM"
    · subst h1
      simp
    · by_cases h2 : k = "serialNumber"
      · subst h2
        simp
      · by_cases h3 : k = "model"
        · subst h3
          simp
        · simp [h1, h2, h3]

/-! ## C7 and C10: the registry across open and close -/

/-- The close loop stays inside a collection that has at least as many
sessions as the loop has iterations, and keeps the size of the collection. -/
theorem closeLoop_defined (n i : Nat) (ss : List Spectrometer) (log : List Call)
    (h : i + n ≤ ss.length) :
    ∃ r, closeLoop n i ss log = some r ∧ r.1.length = ss.length := by
  induction n generalizing i ss log with
  | zero => exact ⟨(ss, log), rfl, rfl⟩
  | succ n ih =>
    have hi : i < ss.length := by omega
    simp only [closeLoop, List.getElem?_eq_getElem hi]
    obtain ⟨r, hr, hlen⟩ := ih (i + 1) (ss.set i (ss[i].close log).2.1) (ss[i].close log).2.2
      (by rw [List.length_set]; omega)
    exact ⟨r, hr, by rw [hlen, List.length_set]⟩

/-- The close loop with at least one iteration on an empty collection reads
outside the collection. -/
theorem closeLoop_empty (n i : Nat) (log : List Call) : closeLoop (n + 1) i [] log = none := by
  simp [closeLoop]

/-- After an enumeration that reports a positive count, a first
`closeAllSpectrometers` returns true and empties the collection but keeps the
cached count, and a second `closeAllSpectrometers` subscripts the empty
collection. -/
theorem closeAllSpectrometers_after_open (E : Extern) (log : List Call) (d : Driver)
    (hN : 0 < E.wp_open_all_spectrometers log) :
    ∃ log1,
      (d.openAllSpectrometers E log).2.1.closeAllSpectrometers
          (d.openAllSpectrometers E log).2.2 =
        some (true,
          { numberOfSpectrometers := E.wp_open_all_spectrometers log, spectrometers := [] },
          log1) ∧
      Driver.closeAllSpectrometers log1
        { numberOfSpectrometers := E.wp_open_all_spectrometers log, spectrometers := [] } =
        none := by
  rw [openAllSpectrometers_pos E log d hN]
  have hlen : (openLoop E (E.wp_open_all_spectrometers log).toNat 0 []
      (log ++ [Call.wp_open_all_spectrometers])).1.length =
      (E.wp_open_all_spectrometers log).toNat := by
    have := congrArg List.length (openLoop_spec E (E.wp_open_all_spectrometers log).toNat 0 []
      (log ++ [Call.wp_open_all_spectrometers]))
    simpa using this
  obtain ⟨r, hr, -⟩ := closeLoop_defined (E.wp_open_all_spectrometers log).toNat 0 _
    (openLoop E (E.wp_open_all_spectrometers log).toNat 0 []
      (log ++ [Call.wp_open_all_spectrometers])).2 (by rw [hlen]; omega)
  refine ⟨r.2, ?_, ?_⟩
  · unfold Driver.closeAllSpectrometers
    dsimp only
    rw [hr]
  · unfold Driver.closeAllSpectrometers
    dsimp only
    obtain ⟨k, hk⟩ : ∃ k, (E.wp_open_all_spectrometers log).toNat = k + 1 :=
      ⟨(E.wp_open_all_spectrometers log).toNat - 1, by omega⟩
    rw [hk, closeLoop_empty]

/-- C7 fails on the code: after `openAllSpectrometers` reports 2 devices and
`closeAllSpectrometers` returns true, the cached count is still 2 while the
collection holds 0 sessions; and after an enumeration that answers `-1` the
cached count is `-1` while the collection holds 0 sessions. -/
theorem numberOfSpectrometers_stale :
    ((Driver.init.openAllSpectrometers twoDevices []).2.1.closeAllSpectrometers
        (Driver.init.openAllSpectrometers twoDevices []).2.2).map
      (fun r => (r.1, r.2.1.numberOfSpectrometers, r.2.1.spectrometers.length)) =
      some (true, 2, 0) ∧
    (Driver.init.openAllSpectrometers enumerationError []).1 = 0 ∧
    (Driver.init.openAllSpectrometers enumerationError []).2.1.numberOfSpectrometers = -1 ∧
    (Driver.init.openAllSpectrometers enumerationError []).2.1.spectrometers.length = 0 := by
  decide

/-- C10 fails on the code: after `openAllSpectrometers` reports 2 devices, a
first `closeAllSpectrometers` is defined, and a second one evaluates
`spectrometers[0]` on the empty collection, which is undefined. -/
theorem closeAllSpectrometers_twice_out_of_bounds :
    (((Driver.init.openAllSpectrometers twoDevices []).2.1.closeAllSpectrometers
        (Driver.init.openAllSpectrometers twoDevices []).2.2).isSome = true) ∧
    (((Driver.init.openAllSpectrometers twoDevices []).2.1.closeAllSpectrometers
        (Driver.init.openAllSpectrometers twoDevices []).2.2).bind
      (fun r => r.2.1.closeAllSpectrometers r.2.2)).isNone = true := by
  decide

/-! ## C8: control pass-throughs -/

/-- The pass-throughs make one call, with the session's handle and the
argument as given, and return the driver's code converted to `bool`. -/
theorem passthrough_calls (E : Extern) (log : List Call) (s : Spectrometer) (ms : Nat)
    (flag : Bool) :
    s.setIntegrationTimeMS E log ms =
      (decide (E.wp_set_integration_time_ms log s.specIndex ms ≠ 0),
       log ++ [Call.wp_set_integration_time_ms s.specIndex ms]) ∧
    s.setLaserEnable E log flag =
      (decide (E.wp_set_laser_enable log s.specIndex flag ≠ 0),
       log ++ [Call.wp_set_laser_enable s.specIndex flag]) :=
  ⟨rfl, rfl⟩

/-- Whatever the value of `WP_SUCCESS`, some return code is classified by the
pass-throughs differently from the test `WP_SUCCESS == r`. -/
theorem passthrough_differs (E : Extern) (log : List Call) (s : Spectrometer) (ms : Nat)
    (flag : Bool) :
    ∃ r : Int,
      (s.setIntegrationTimeMS (withControlCode E r) log ms).1 ≠ decide (E.WP_SUCCESS = r) ∧
      (s.setLaserEnable (withControlCode E r) log flag).1 ≠ decide (E.WP_SUCCESS = r) := by
  by_cases h0 : E.WP_SUCCESS = 0
  · refine ⟨0, ?_, ?_⟩ <;>
      simp [Spectrometer.setIntegrationTimeMS, Spectrometer.setLaserEnable, withControlCode, h0]
  · by_cases h1 : E.WP_SUCCESS = 1
    · refine ⟨2, ?_, ?_⟩ <;>
        simp [Spectrometer.setIntegrationTimeMS, Spectrometer.setLaserEnable, withControlCode, h1]
    · refine ⟨1, ?_, ?_⟩ <;>
        simp [Spectrometer.setIntegrationTimeMS, Spectrometer.setLaserEnable, withControlCode, h1]

/-- C8 fails on the code: with `WP_SUCCESS = 0` and a driver that answers the
success code, `setIntegrationTimeMS` and `setLaserEnable` return false, while
`setLogfile`, which tests `WP_SUCCESS == r`, returns true on the same code. -/
theorem passthrough_success_reported_false :
    twoDevices.wp_set_integration_time_ms [] 0 100 = twoDevices.WP_SUCCESS ∧
    ((Spectrometer.ctor twoDevices [] 0).1.setIntegrationTimeMS twoDevices [] 100).1 = false ∧
    twoDevices.wp_set_laser_enable [] 0 true = twoDevices.WP_SUCCESS ∧
    ((Spectrometer.ctor twoDevices [] 0).1.setLaserEnable twoDevices [] true).1 = false ∧
    twoDevices.wp_set_logfile_path [] "wasatch.log" = twoDevices.WP_SUCCESS ∧
    (Driver.setLogfile twoDevices [] "wasatch.log").1 = true := by
  decide

end WasatchVCPP.Proxy
